import Mathlib

/-!
Verification of the rhythm timing and judgment engine of the Dancing-game
repository: a shallow embedding of the score/combo state machine
(src/game/scoring.ts), the rhythm lane (src/game/rhythm.ts) and the daily
challenge tracker, together with theorems about their behaviour.

Modelling conventions:
- JavaScript numbers are embedded as exact rationals; the integer counters
  are embedded as naturals.
- JavaScript Math.round is round-half-up: jsRound q = floor (q + 1/2);
  Math.abs is jsAbs, written with a sign test so that it evaluates.
- The 32-bit wrap-around of the date hash (the bitwise or with 0 in the
  source) is embedded as explicit reduction modulo 2 ^ 32 into the signed
  range.
- Rendering-only data (sprites, positions, colours) carries no scoring
  semantics and is omitted from the embedded state.
- In-place mutation of a state record becomes a function returning the new
  record; functions that both mutate and return a value return a pair.
-/

namespace DancingGame

/-- JavaScript Math.round for a rational: round half toward positive
infinity, as floor of the argument plus one half. -/
def jsRound (q : ℚ) : ℤ := ⌊q + 1 / 2⌋

/-- JavaScript Math.abs on a rational, written with a sign test so that it
evaluates by kernel reduction. -/
def jsAbs (q : ℚ) : ℚ := if q < 0 then -q else q

-- ─── Types (src/types/index.ts) ─────────────────────────────────────────────

/-- The six symbolic tap zones, from the TapZone union type. -/
inductive TapZone
  | upperLeft
  | upperCenter
  | upperRight
  | lowerLeft
  | lowerCenter
  | lowerRight
  deriving DecidableEq, Repr

/-- Hit ratings, from the HitRating union type. -/
inductive HitRating
  | perfect
  | good
  | miss
  deriving DecidableEq, Repr

/-- The three horizontal screen columns used for hit testing. -/
inductive Column
  | left
  | center
  | right
  deriving DecidableEq, Repr

-- ─── Score state (src/game/scoring.ts) ──────────────────────────────────────

/-- The ScoreState record, restricted to the fields the rhythm scoring
functions read or write.  lastMoveId, consecutiveDifferentMoves,
sessionStart and isGrounded are untouched by registerRhythmHit,
calculateSessionBonus and the rhythm tickScore, and are omitted. -/
structure ScoreState where
  crowdHype : ℚ
  combo : ℕ
  comboMultiplier : ℚ
  totalScore : ℤ
  perfectHits : ℕ
  goodHits : ℕ
  totalHitAttempts : ℕ
  consecutivePerfects : ℕ
  deriving DecidableEq, Repr

/-- createScoreState: the zeroed aggregate. -/
def createScoreState : ScoreState :=
  { crowdHype := 0
    combo := 0
    comboMultiplier := 1
    totalScore := 0
    perfectHits := 0
    goodHits := 0
    totalHitAttempts := 0
    consecutivePerfects := 0 }

/-- The RhythmHitResult record: a rating, the zone involved, and the id of
the target that was resolved (-1 for a pure auto-miss). -/
structure RhythmHitResult where
  rating : HitRating
  zone : TapZone
  targetId : ℤ
  deriving DecidableEq, Repr

/-- registerRhythmHit: registers a rhythm hit or miss on the score state and
returns the new state together with the points awarded. -/
def registerRhythmHit (score : ScoreState) (hit : RhythmHitResult) :
    ScoreState × ℤ :=
  let s1 := { score with totalHitAttempts := score.totalHitAttempts + 1 }
  if hit.rating = HitRating.miss then
    ({ s1 with
        combo := 0
        consecutivePerfects := 0
        comboMultiplier := max 1 (s1.comboMultiplier - 1 / 2)
        totalScore := ⌊s1.crowdHype⌋ }, 0)
  else
    let base : ℚ := if hit.rating = HitRating.perfect then 300 else 100
    let points : ℤ := jsRound (base * s1.comboMultiplier)
    let s2 := { s1 with
        crowdHype := s1.crowdHype + points
        totalScore := ⌊s1.crowdHype + (points : ℚ)⌋
        combo := s1.combo + 1
        comboMultiplier := min 5 (1 + (s1.combo + 1 : ℚ) * (1 / 4)) }
    let s3 :=
      if hit.rating = HitRating.perfect then
        { s2 with
            perfectHits := s2.perfectHits + 1
            consecutivePerfects := s2.consecutivePerfects + 1 }
      else
        { s2 with
            goodHits := s2.goodHits + 1
            consecutivePerfects := 0 }
    (s3, points)

/-- calculateSessionBonus: the end-of-session accuracy bonus. -/
def calculateSessionBonus (score : ScoreState) : ℤ :=
  if score.totalHitAttempts = 0 then 0
  else jsRound ((score.perfectHits : ℚ) / (score.totalHitAttempts : ℚ) * 500)

/-- tickScore (rhythm variant): idle decay of the combo multiplier when the
combo is zero.  The currentMove argument of the source is unused there and
is dropped. -/
def tickScore (score : ScoreState) (dt : ℚ) : ScoreState :=
  if score.combo = 0 then
    { score with comboMultiplier := max 1 (score.comboMultiplier - dt * (1 / 10)) }
  else score

-- ─── Rhythm lane (src/game/rhythm.ts) ───────────────────────────────────────

/-- Timing windows and pacing constants of the rhythm engine. -/
def perfectWindow : ℚ := 1 / 20

/-- The good window: plus or minus 150 milliseconds. -/
def goodWindow : ℚ := 3 / 20

/-- Beats a target travels from spawn to the hit rail. -/
def travelBeats : ℚ := 4

/-- Auto-miss grace period after the scheduled hit time. -/
def graceSec : ℚ := 1 / 4

/-- Lifecycle state of a rhythm target. -/
inductive TargetState
  | active
  | hit
  | missed
  deriving DecidableEq, Repr

/-- A rhythm target, restricted to the fields that affect judgment: the
sprite and the geometry fields spawnY, railY and travelSec are rendering
only. -/
structure RhythmTarget where
  id : ℕ
  zone : TapZone
  hitTime : ℚ
  state : TargetState
  deriving DecidableEq, Repr

/-- zoneColumn: map a zone to its column.  The source tests whether the zone
string contains "left", then "right", and defaults to center. -/
def zoneColumn (zone : TapZone) : Column :=
  match zone with
  | TapZone.upperLeft => Column.left
  | TapZone.lowerLeft => Column.left
  | TapZone.upperRight => Column.right
  | TapZone.lowerRight => Column.right
  | TapZone.upperCenter => Column.center
  | TapZone.lowerCenter => Column.center

/-- columnFromX: map a tap abscissa to a column by thirds of the canvas
width. -/
def columnFromX (canvasW x : ℚ) : Column :=
  if x < canvasW / 3 then Column.left
  else if x < canvasW / 3 * 2 then Column.center
  else Column.right

/-- The absolute time delta between the tap instant and a target. -/
def deltaOf (audioNow : ℚ) (t : RhythmTarget) : ℚ := jsAbs (audioNow - t.hitTime)

/-- Whether the scan of tryHit improves on the best candidate so far: true
against no candidate (best delta infinity), otherwise a strictly smaller
delta. -/
def hitBetter (audioNow : ℚ) (t : RhythmTarget) :
    Option (ℕ × RhythmTarget) → Bool
  | none => true
  | some (_, b) => decide (deltaOf audioNow t < deltaOf audioNow b)

/-- The scan loop of tryHit over the target array: skip targets that are not
active or sit in another column; adopt a target whose delta is inside the
good window and strictly below the best delta so far.  The second argument
is the array index of the head of the remaining list. -/
def tryHitLoop (col : Column) (audioNow : ℚ) :
    List RhythmTarget → ℕ → Option (ℕ × RhythmTarget) →
      Option (ℕ × RhythmTarget)
  | [], _, best => best
  | t :: rest, i, best =>
      if t.state = TargetState.active ∧ zoneColumn t.zone = col ∧
          deltaOf audioNow t ≤ goodWindow ∧ hitBetter audioNow t best = true
      then tryHitLoop col audioNow rest (i + 1) (some (i, t))
      else tryHitLoop col audioNow rest (i + 1) best

/-- tryHit: resolve a tap at (tapX, tapY) at audio time audioNow against the
target list.  Returns the judgment, if any, together with the target list
after the in-place state mutation (the tapY argument is unused by the
source).  A null judgment leaves the targets untouched. -/
def tryHit (canvasW : ℚ) (targets : List RhythmTarget)
    (tapX _tapY audioNow : ℚ) : Option RhythmHitResult × List RhythmTarget :=
  match tryHitLoop (columnFromX canvasW tapX) audioNow targets 0 none with
  | none => (none, targets)
  | some (i, best) =>
      let rating :=
        if deltaOf audioNow best ≤ perfectWindow then HitRating.perfect
        else HitRating.good
      (some ⟨rating, best.zone, (best.id : ℤ)⟩,
        targets.set i { best with state := TargetState.hit })

/-- update: one frame of the rhythm engine at audio time audioNow.  Targets
that are no longer active are removed; an active target past its grace
period becomes missed, is removed, and its zone is emitted as a miss
notification; every other active target is kept (its sprite is animated,
with no scoring effect).  Returns the remaining targets and the emitted miss
zones in scan order. -/
def updateTargets (audioNow : ℚ) :
    List RhythmTarget → List RhythmTarget × List TapZone
  | [] => ([], [])
  | t :: rest =>
      let r := updateTargets audioNow rest
      if t.state ≠ TargetState.active then r
      else if audioNow > t.hitTime + graceSec then (r.1, t.zone :: r.2)
      else (t :: r.1, r.2)

/-- onBeatFired: spawn the targets of one beat.  The slot list lookup at
index beatNum mod patternLength is partial: with an empty beat pattern the
JavaScript source computes beatNum % 0 = NaN, reads an undefined slot list
and throws on iterating it; that fault is modelled as none.  On success the
new target list and the advanced id counter are returned; each spawned
target is active with hitTime = beatTime + travelBeats * secPerBeat. -/
def onBeatFired (running : Bool) (beatPattern : List (List TapZone))
    (secPerBeat : ℚ) (idCounter : ℕ) (targets : List RhythmTarget)
    (beatNum : ℕ) (beatTime : ℚ) : Option (List RhythmTarget × ℕ) :=
  if running = false then some (targets, idCounter)
  else
    match beatPattern[beatNum % beatPattern.length]? with
    | none => none
    | some zones =>
        some (targets ++
          ((List.range zones.length).zip zones).map (fun p =>
            { id := idCounter + p.1
              zone := p.2
              hitTime := beatTime + travelBeats * secPerBeat
              state := TargetState.active }),
          idCounter + zones.length)

-- ─── Daily challenge (src/game/scoring.ts) ──────────────────────────────────

/-- Reduce an integer into the signed 32-bit range, as the JavaScript
bitwise or with zero does. -/
def toInt32 (n : ℤ) : ℤ := (n + 2 ^ 31) % 2 ^ 32 - 2 ^ 31

/-- One step of the date-string hash: hash becomes
((hash shifted left by 5) - hash + code) | 0, where the shift itself wraps
to 32 bits. -/
def hashStep (h : ℤ) (c : ℕ) : ℤ := toInt32 (toInt32 (h * 32) - h + c)

/-- The rolling hash of generateDailyChallenge over the code units of the
date string (date strings are ASCII, where UTF-16 code units and code
points agree), with the final Math.abs. -/
def dateHash (dateStr : String) : ℕ :=
  (dateStr.data.foldl (fun h c => hashStep h c.toNat) 0).natAbs

/-- The condition type tags of the rhythm variant of ChallengeCondition. -/
inductive CondType
  | hit_streak
  | dance_move
  | combo
  | score
  deriving DecidableEq, Repr

/-- A challenge condition: a type tag with the optional count and
targetScore fields the rhythm game uses (the optional moveId field is never
read by the embedded functions and is omitted). -/
structure ChallengeCondition where
  type : CondType
  count : Option ℕ
  targetScore : Option ℤ
  deriving DecidableEq, Repr

/-- A daily challenge. -/
structure DailyChallenge where
  date : String
  description : String
  conditions : List ChallengeCondition
  rewardPoints : ℕ
  deriving DecidableEq, Repr

/-- generateDailyChallenge: derive the challenge of a given date string from
its hash. -/
def generateDailyChallenge (dateStr : String) : DailyChallenge :=
  let hash := dateHash dateStr
  let streakCount := 5 + hash % 8
  let scoreTarget : ℤ := ((2 + hash % 8 : ℕ) : ℤ) * 500
  { date := dateStr
    description := "Land " ++ toString streakCount ++
      " perfect hits in a row! Score " ++ toString scoreTarget ++ "+ Hype."
    conditions := [
      { type := CondType.hit_streak, count := some streakCount,
        targetScore := none },
      { type := CondType.score, count := none,
        targetScore := some scoreTarget }]
    rewardPoints := 500 + streakCount * 100 }

/-- The per-session challenge progress tracker. -/
structure ChallengeProgress where
  challenge : DailyChallenge
  consecutivePerfects : ℕ
  bestStreak : ℕ
  scoreReached : Bool
  completed : Bool
  deriving DecidableEq, Repr

/-- createChallengeProgress: the zeroed tracker. -/
def createChallengeProgress (challenge : DailyChallenge) : ChallengeProgress :=
  { challenge := challenge
    consecutivePerfects := 0
    bestStreak := 0
    scoreReached := false
    completed := false }

/-- Truthiness of the targetScore field of a condition, as the source tests
cond.targetScore: an absent field and zero are both falsy. -/
def targetScoreTruthy (c : ChallengeCondition) : Bool :=
  match c.targetScore with
  | none => false
  | some v => decide (v ≠ 0)

/-- The streak-tracking phase of updateChallengeProgress: on a perfect
rating the running streak grows and the best streak is raised when
exceeded; on a miss or good rating the running streak resets; with no
rating nothing changes. -/
def trackStreak (progress : ChallengeProgress) (rating : Option HitRating) :
    ChallengeProgress :=
  if rating = some HitRating.perfect then
    let cp := progress.consecutivePerfects + 1
    { progress with
        consecutivePerfects := cp
        bestStreak :=
          if cp > progress.bestStreak then cp else progress.bestStreak }
  else if rating = some HitRating.miss ∨ rating = some HitRating.good then
    { progress with consecutivePerfects := 0 }
  else progress

/-- The score-condition phase of updateChallengeProgress: scoreReached is
set when some score condition with a truthy target is reached by the total
score. -/
def checkScore (progress : ChallengeProgress) (score : ScoreState) :
    ChallengeProgress :=
  if progress.challenge.conditions.any (fun c =>
      decide (c.type = CondType.score) && targetScoreTruthy c &&
        decide (c.targetScore.getD 0 ≤ score.totalScore)) = true
  then { progress with scoreReached := true } else progress

/-- The completion phase of updateChallengeProgress: completed is set when
the first hit-streak condition (if any) is met by the best streak and the
first score condition (if any) has been reached. -/
def checkCompletion (progress : ChallengeProgress) : ChallengeProgress :=
  let streakCond := progress.challenge.conditions.find? (fun c =>
    decide (c.type = CondType.hit_streak))
  let scoreCond := progress.challenge.conditions.find? (fun c =>
    decide (c.type = CondType.score))
  let streakDone : Bool :=
    match streakCond with
    | none => true
    | some c => decide (c.count.getD 1 ≤ progress.bestStreak)
  let scoreDone : Bool :=
    match scoreCond with
    | none => true
    | some _ => progress.scoreReached
  if streakDone && scoreDone then { progress with completed := true }
  else progress

/-- updateChallengeProgress: ignore everything once completed; otherwise run
the streak-tracking, score-condition and completion phases in the order of
the source.  The rating argument is optional in the source. -/
def updateChallengeProgress (progress : ChallengeProgress)
    (score : ScoreState) (rating : Option HitRating) : ChallengeProgress :=
  if progress.completed = true then progress
  else checkCompletion (checkScore (trackStreak progress rating) score)

-- ─── Predicates used by the theorems ────────────────────────────────────────

/-- The score-state invariant of claim C5: the displayed total score is the
floor of the fractional hype, and the combo multiplier stays in [1, 5]. -/
def ScoreInvariant (s : ScoreState) : Prop :=
  s.totalScore = ⌊s.crowdHype⌋ ∧ 1 ≤ s.comboMultiplier ∧ s.comboMultiplier ≤ 5

/-- A target is a candidate for a tap in column col at time audioNow when it
is active, its zone maps to that column, and its delta is inside the good
window. -/
def isCandidate (col : Column) (audioNow : ℚ) (t : RhythmTarget) : Prop :=
  t.state = TargetState.active ∧ zoneColumn t.zone = col ∧
    deltaOf audioNow t ≤ goodWindow

instance (col : Column) (audioNow : ℚ) (t : RhythmTarget) :
    Decidable (isCandidate col audioNow t) := by
  unfold isCandidate; infer_instance

/-- Invariant of the tryHit scan over the prefix already seen: either no
candidate was seen, or the best pair holds the position and value of a
candidate of minimal delta, strictly smaller than the delta of every
candidate before it. -/
def LoopInv (col : Column) (audioNow : ℚ) (seen : List RhythmTarget) :
    Option (ℕ × RhythmTarget) → Prop
  | none => ∀ t ∈ seen, ¬ isCandidate col audioNow t
  | some (j, b) =>
      isCandidate col audioNow b ∧
      ∃ l₁ l₂, seen = l₁ ++ b :: l₂ ∧ j = l₁.length ∧
        (∀ t ∈ l₁, isCandidate col audioNow t →
          deltaOf audioNow b < deltaOf audioNow t) ∧
        (∀ t ∈ l₂, isCandidate col audioNow t →
          deltaOf audioNow b ≤ deltaOf audioNow t)

/-- A concrete target used by the witnesses: spawned in the left column with
hit time 10 seconds. -/
def sampleTarget : RhythmTarget :=
  { id := 0, zone := TapZone.upperLeft, hitTime := 10,
    state := TargetState.active }

-- ─── Theorems: helper lemmas ────────────────────────────────────────────────

lemma jsAbs_eq_abs (q : ℚ) : jsAbs q = |q| := by
  unfold jsAbs
  split <;> [exact (abs_of_neg (by assumption)).symm;
    exact (abs_of_nonneg (not_lt.mp (by assumption))).symm]

lemma loopInv_delta_le (col : Column) (audioNow : ℚ)
    (seen : List RhythmTarget) (j : ℕ) (b : RhythmTarget)
    (h : LoopInv col audioNow seen (some (j, b))) :
    ∀ t ∈ seen, isCandidate col audioNow t →
      deltaOf audioNow b ≤ deltaOf audioNow t := by
  obtain ⟨hb, l₁, l₂, hseen, hj, hlt, hle⟩ := h
  intro t ht hc
  rw [hseen] at ht
  rcases List.mem_append.mp ht with h1 | h2
  · exact le_of_lt (hlt t h1 hc)
  · rcases List.mem_cons.mp h2 with rfl | h3
    · exact le_refl _
    · exact hle t h3 hc

lemma tryHitLoop_inv (col : Column) (audioNow : ℚ) (l : List RhythmTarget) :
    ∀ (seen : List RhythmTarget) (best : Option (ℕ × RhythmTarget)),
      LoopInv col audioNow seen best →
      LoopInv col audioNow (seen ++ l)
        (tryHitLoop col audioNow l seen.length best) := by
  induction l with
  | nil => intro seen best h; simpa [tryHitLoop] using h
  | cons t rest ih =>
      intro seen best h
      rw [tryHitLoop]
      by_cases hc : t.state = TargetState.active ∧ zoneColumn t.zone = col ∧
          deltaOf audioNow t ≤ goodWindow ∧ hitBetter audioNow t best = true
      · rw [if_pos hc]
        have hcand : isCandidate col audioNow t := ⟨hc.1, hc.2.1, hc.2.2.1⟩
        have hnew : LoopInv col audioNow (seen ++ [t])
            (some (seen.length, t)) := by
          refine ⟨hcand, seen, [], by simp, rfl, ?_, by simp⟩
          intro u hu hcu
          match best, h with
          | none, h => exact absurd hcu (h u hu)
          | some (j₀, b₀), h =>
              have hlt : deltaOf audioNow t < deltaOf audioNow b₀ := by
                have := hc.2.2.2
                simpa [hitBetter] using this
              exact lt_of_lt_of_le hlt (loopInv_delta_le col audioNow seen
                j₀ b₀ h u hu hcu)
        have := ih (seen ++ [t]) (some (seen.length, t)) hnew
        simpa [List.append_assoc] using this
      · rw [if_neg hc]
        have hkeep : LoopInv col audioNow (seen ++ [t]) best := by
          match best, h with
          | none, h =>
              intro u hu
              rcases List.mem_append.mp hu with h1 | h2
              · exact h u h1
              · rcases List.mem_singleton.mp h2 with rfl
                intro hcu
                exact hc ⟨hcu.1, hcu.2.1, hcu.2.2, by simp [hitBetter]⟩
          | some (j₀, b₀), h =>
              obtain ⟨hb, l₁, l₂, hseen, hj, hlt, hle⟩ := h
              refine ⟨hb, l₁, l₂ ++ [t], by simp [hseen], hj, hlt, ?_⟩
              intro u hu hcu
              rcases List.mem_append.mp hu with h1 | h2
              · exact hle u h1 hcu
              · rcases List.mem_singleton.mp h2 with rfl
                by_contra hno
                push_neg at hno
                exact hc ⟨hcu.1, hcu.2.1, hcu.2.2,
                  by simp [hitBetter, deltaOf]; exact hno⟩
        have := ih (seen ++ [t]) best hkeep
        simpa [List.append_assoc] using this

lemma set_append_cons {α : Type} (l₁ l₂ : List α) (a v : α) :
    (l₁ ++ a :: l₂).set l₁.length v = l₁ ++ v :: l₂ := by
  induction l₁ with
  | nil => rfl
  | cons x xs ih => simp [List.set, ih]

-- ─── Theorems: rhythm lane tap judgment (C1) ────────────────────────────────

/-- Claim C1: tryHit maps the tap abscissa to a column by thirds of the
play-field width and considers only active targets of that column within
the 0.15 s good window; it selects the candidate with the smallest delta,
breaking exact ties in favour of the first-created candidate, rates it
perfect when the delta is at most 0.05 s and good otherwise, marks exactly
that target hit, and returns the judgment; with no candidate it returns
null and changes no target, so a target of another column is never resolved
by the tap. -/
theorem tryHit_spec (canvasW : ℚ) (targets : List RhythmTarget)
    (tapX tapY audioNow : ℚ) :
    ((tryHit canvasW targets tapX tapY audioNow).1 = none →
      (tryHit canvasW targets tapX tapY audioNow).2 = targets ∧
      ∀ t ∈ targets, ¬ isCandidate (columnFromX canvasW tapX) audioNow t) ∧
    (∀ r, (tryHit canvasW targets tapX tapY audioNow).1 = some r →
      ∃ l₁ b l₂, targets = l₁ ++ b :: l₂ ∧
        isCandidate (columnFromX canvasW tapX) audioNow b ∧
        (∀ t ∈ l₁, isCandidate (columnFromX canvasW tapX) audioNow t →
          deltaOf audioNow b < deltaOf audioNow t) ∧
        (∀ t ∈ targets, isCandidate (columnFromX canvasW tapX) audioNow t →
          deltaOf audioNow b ≤ deltaOf audioNow t) ∧
        r = ⟨if deltaOf audioNow b ≤ perfectWindow then HitRating.perfect
             else HitRating.good, b.zone, (b.id : ℤ)⟩ ∧
        (tryHit canvasW targets tapX tapY audioNow).2 =
          l₁ ++ { b with state := TargetState.hit } :: l₂) := by
  have hinv0 : LoopInv (columnFromX canvasW tapX) audioNow [] none := by
    simp [LoopInv]
  have hinv := tryHitLoop_inv (columnFromX canvasW tapX) audioNow targets []
    none hinv0
  simp only [List.nil_append, List.length_nil] at hinv
  rcases hres : tryHitLoop (columnFromX canvasW tapX) audioNow targets 0 none
    with _ | ⟨j, b⟩
  · rw [hres] at hinv
    refine ⟨fun _ => ⟨by simp [tryHit, hres], hinv⟩, fun r hr => ?_⟩
    simp [tryHit, hres] at hr
  · rw [hres] at hinv
    obtain ⟨hb, l₁, l₂, hseen, hj, hlt, hle⟩ := hinv
    refine ⟨fun hnone => ?_, fun r hr => ?_⟩
    · simp [tryHit, hres] at hnone
    · have hall : ∀ t ∈ targets, isCandidate (columnFromX canvasW tapX)
          audioNow t → deltaOf audioNow b ≤ deltaOf audioNow t :=
        loopInv_delta_le (columnFromX canvasW tapX) audioNow targets j b
          ⟨hb, l₁, l₂, hseen, hj, hlt, hle⟩
      have hr2 : r = ⟨if deltaOf audioNow b ≤ perfectWindow then
          HitRating.perfect else HitRating.good, b.zone, (b.id : ℤ)⟩ := by
        simp only [tryHit, hres] at hr
        exact (Option.some.inj hr).symm
      have hset : (tryHit canvasW targets tapX tapY audioNow).2 =
          l₁ ++ { b with state := TargetState.hit } :: l₂ := by
        rw [hseen] at hres ⊢
        rw [hj] at hres
        simp [tryHit, hres, set_append_cons]
      exact ⟨l₁, b, l₂, hseen, hb, hlt, hall, hr2, hset⟩

/-- Witness for C1: a tap in the left column at 10.04 s resolves the sample
target as a perfect hit and marks it hit. -/
theorem tryHit_spec_witness :
    ∃ l₁ b l₂,
      [sampleTarget] = l₁ ++ b :: l₂ ∧
      isCandidate (columnFromX 300 50) (251 / 25) b ∧
      (∀ t ∈ l₁, isCandidate (columnFromX 300 50) (251 / 25) t →
        deltaOf (251 / 25) b < deltaOf (251 / 25) t) ∧
      (∀ t ∈ [sampleTarget], isCandidate (columnFromX 300 50) (251 / 25) t →
        deltaOf (251 / 25) b ≤ deltaOf (251 / 25) t) ∧
      (⟨HitRating.perfect, TapZone.upperLeft, (0 : ℤ)⟩ : RhythmHitResult) =
        ⟨if deltaOf (251 / 25) b ≤ perfectWindow then HitRating.perfect
          else HitRating.good, b.zone, (b.id : ℤ)⟩ ∧
      (tryHit 300 [sampleTarget] 50 0 (251 / 25)).2 =
        l₁ ++ { b with state := TargetState.hit } :: l₂ :=
  (tryHit_spec 300 [sampleTarget] 50 0 (251 / 25)).2
    ⟨HitRating.perfect, TapZone.upperLeft, 0⟩ (by
      norm_num [tryHit, tryHitLoop, columnFromX, deltaOf, jsAbs, sampleTarget,
        goodWindow, perfectWindow, hitBetter, zoneColumn])

-- ─── Theorems: rhythm lane update (C4) ──────────────────────────────────────

/-- Claim C4: an update at audioNow removes each active target and emits its
zone as a miss exactly when audioNow is strictly past hitTime plus the 0.25
second grace period; every active target at or before the end of its grace
period survives unchanged (still active), and update emits only bare miss
zones, never a hit judgment. -/
theorem updateTargets_spec (audioNow : ℚ) (targets : List RhythmTarget) :
    (updateTargets audioNow targets).1 =
      targets.filter (fun t => decide (t.state = TargetState.active ∧
        ¬ audioNow > t.hitTime + graceSec)) ∧
    (updateTargets audioNow targets).2 =
      (targets.filter (fun t => decide (t.state = TargetState.active ∧
        audioNow > t.hitTime + graceSec))).map (fun t => t.zone) ∧
    ∀ t ∈ targets, t.state = TargetState.active →
      ¬ audioNow > t.hitTime + graceSec →
      t ∈ (updateTargets audioNow targets).1 := by
  have main : (updateTargets audioNow targets).1 =
      targets.filter (fun t => decide (t.state = TargetState.active ∧
        ¬ audioNow > t.hitTime + graceSec)) ∧
      (updateTargets audioNow targets).2 =
      (targets.filter (fun t => decide (t.state = TargetState.active ∧
        audioNow > t.hitTime + graceSec))).map (fun t => t.zone) := by
    induction targets with
    | nil => exact ⟨rfl, rfl⟩
    | cons t rest ih =>
        by_cases h1 : t.state = TargetState.active
        · by_cases h2 : audioNow > t.hitTime + graceSec
          · simpa [updateTargets, h1, h2, not_le.mpr h2, List.filter_cons]
              using ih
          · simpa [updateTargets, h1, h2, not_lt.mp h2, List.filter_cons]
              using ih
        · simpa [updateTargets, h1, List.filter_cons] using ih
  refine ⟨main.1, main.2, fun t ht hact hgrace => ?_⟩
  rw [main.1, List.mem_filter]
  exact ⟨ht, by simp [hact, hgrace]⟩

/-- Witness for C4: a single still-active target inside its grace period
survives the update. -/
theorem updateTargets_spec_witness :
    sampleTarget ∈ (updateTargets (41 / 4) [sampleTarget]).1 :=
  (updateTargets_spec (41 / 4) _).2.2 _ (List.mem_singleton.mpr rfl) rfl
    (by norm_num [graceSec, sampleTarget])

-- ─── Theorems: score/combo state machine ────────────────────────────────────

/-- Claim C2: for every score state and every hit rated perfect or good,
registerRhythmHit returns round (base times the prior multiplier) points with
base 300 for perfect and 100 for good; afterwards crowdHype has grown by
exactly those points, totalScore is the floor of the new crowdHype, combo has
grown by one, the multiplier is recomputed as min 5 (1 + combo / 4) from the
incremented combo, totalHitAttempts has grown by one, the matching accuracy
counter has grown by one, and consecutivePerfects is incremented on perfect
and reset on good. -/
theorem registerRhythmHit_hit_spec (s : ScoreState) (hit : RhythmHitResult)
    (h : hit.rating = HitRating.perfect ∨ hit.rating = HitRating.good) :
    (registerRhythmHit s hit).2 =
      jsRound ((if hit.rating = HitRating.perfect then (300 : ℚ) else 100) *
        s.comboMultiplier) ∧
    ((registerRhythmHit s hit).1).crowdHype =
      s.crowdHype + ((registerRhythmHit s hit).2 : ℚ) ∧
    ((registerRhythmHit s hit).1).totalScore =
      ⌊((registerRhythmHit s hit).1).crowdHype⌋ ∧
    ((registerRhythmHit s hit).1).combo = s.combo + 1 ∧
    ((registerRhythmHit s hit).1).comboMultiplier =
      min 5 (1 + (((registerRhythmHit s hit).1).combo : ℚ) * (1 / 4)) ∧
    ((registerRhythmHit s hit).1).totalHitAttempts = s.totalHitAttempts + 1 ∧
    (hit.rating = HitRating.perfect →
      ((registerRhythmHit s hit).1).perfectHits = s.perfectHits + 1 ∧
      ((registerRhythmHit s hit).1).goodHits = s.goodHits ∧
      ((registerRhythmHit s hit).1).consecutivePerfects =
        s.consecutivePerfects + 1) ∧
    (hit.rating = HitRating.good →
      ((registerRhythmHit s hit).1).goodHits = s.goodHits + 1 ∧
      ((registerRhythmHit s hit).1).perfectHits = s.perfectHits ∧
      ((registerRhythmHit s hit).1).consecutivePerfects = 0) := by
  rcases h with h | h <;> simp [registerRhythmHit, h, Nat.cast_add]

/-- Witness for C2: one perfect hit on the fresh state increments combo. -/
theorem registerRhythmHit_hit_spec_witness :
    ((registerRhythmHit createScoreState
        ⟨HitRating.perfect, TapZone.upperLeft, 1⟩).1).combo =
      createScoreState.combo + 1 :=
  (registerRhythmHit_hit_spec createScoreState
      ⟨HitRating.perfect, TapZone.upperLeft, 1⟩ (Or.inl rfl)).2.2.2.1

/-- Claim C3: for every score state, registerRhythmHit on a miss returns 0,
leaves crowdHype unchanged, zeroes combo and consecutivePerfects, drops the
multiplier by one half floored at one, still increments totalHitAttempts, and
resyncs totalScore to the floor of crowdHype. -/
theorem registerRhythmHit_miss_spec (s : ScoreState) (hit : RhythmHitResult)
    (h : hit.rating = HitRating.miss) :
    (registerRhythmHit s hit).2 = 0 ∧
    ((registerRhythmHit s hit).1).crowdHype = s.crowdHype ∧
    ((registerRhythmHit s hit).1).combo = 0 ∧
    ((registerRhythmHit s hit).1).consecutivePerfects = 0 ∧
    ((registerRhythmHit s hit).1).comboMultiplier =
      max 1 (s.comboMultiplier - 1 / 2) ∧
    ((registerRhythmHit s hit).1).totalHitAttempts = s.totalHitAttempts + 1 ∧
    ((registerRhythmHit s hit).1).totalScore = ⌊s.crowdHype⌋ ∧
    ((registerRhythmHit s hit).1).perfectHits = s.perfectHits ∧
    ((registerRhythmHit s hit).1).goodHits = s.goodHits := by
  simp [registerRhythmHit, h]

/-- Witness for C3: a miss on a state with a running combo returns 0 points. -/
theorem registerRhythmHit_miss_spec_witness :
    (registerRhythmHit { createScoreState with combo := 3 }
        ⟨HitRating.miss, TapZone.lowerCenter, -1⟩).2 = 0 :=
  (registerRhythmHit_miss_spec { createScoreState with combo := 3 }
      ⟨HitRating.miss, TapZone.lowerCenter, -1⟩ rfl).1

/-- Claim C5: the invariant holds for createScoreState and is preserved by
registerRhythmHit with any rating and by tickScore with nonnegative dt. -/
theorem scoreInvariant_preserved :
    ScoreInvariant createScoreState ∧
    (∀ s hit, ScoreInvariant s → ScoreInvariant (registerRhythmHit s hit).1) ∧
    (∀ s dt, 0 ≤ dt → ScoreInvariant s → ScoreInvariant (tickScore s dt)) := by
  refine ⟨by norm_num [ScoreInvariant, createScoreState], ?_, ?_⟩
  · intro s hit hinv
    obtain ⟨hts, hlo, hhi⟩ := hinv
    obtain ⟨r, z, i⟩ := hit
    cases r <;> simp [registerRhythmHit, ScoreInvariant]
    · positivity
    · positivity
    · linarith
  · intro s dt hdt hinv
    obtain ⟨hts, hlo, hhi⟩ := hinv
    unfold tickScore
    split
    · refine ⟨hts, le_max_left _ _, max_le (by norm_num) (by nlinarith)⟩
    · exact ⟨hts, hlo, hhi⟩

/-- Witness for C5: the invariant survives one idle tick of the fresh state. -/
theorem scoreInvariant_preserved_witness :
    ScoreInvariant (tickScore createScoreState 1) :=
  scoreInvariant_preserved.2.2 createScoreState 1 (by norm_num)
    scoreInvariant_preserved.1

/-- Claim C9: calculateSessionBonus returns 0 with no attempts, otherwise
round (500 times perfectHits over totalHitAttempts); with every attempt
perfect it returns exactly 500. -/
theorem calculateSessionBonus_spec (s : ScoreState) :
    (s.totalHitAttempts = 0 → calculateSessionBonus s = 0) ∧
    (s.totalHitAttempts ≠ 0 →
      calculateSessionBonus s =
        jsRound (500 * (s.perfectHits : ℚ) / (s.totalHitAttempts : ℚ))) ∧
    (s.totalHitAttempts ≠ 0 → s.perfectHits = s.totalHitAttempts →
      calculateSessionBonus s = 500) := by
  refine ⟨fun h => by simp [calculateSessionBonus, h], fun h => ?_, fun h hp => ?_⟩
  · simp only [calculateSessionBonus, if_neg h]
    congr 1
    ring
  · have hne : ((s.totalHitAttempts : ℚ)) ≠ 0 := Nat.cast_ne_zero.mpr h
    simp only [calculateSessionBonus, if_neg h, hp, div_self hne, one_mul]
    norm_num [jsRound]

/-- Witness for C9: three perfect hits out of three attempts give bonus 500. -/
theorem calculateSessionBonus_spec_witness :
    calculateSessionBonus
      { createScoreState with perfectHits := 3, totalHitAttempts := 3 } = 500 :=
  (calculateSessionBonus_spec
      { createScoreState with perfectHits := 3, totalHitAttempts := 3 }).2.2
    (by simp) rfl

-- ─── Theorems: daily challenge (C6, C7, C8) ─────────────────────────────────

/-- Claim C6: generateDailyChallenge is a pure function of the date string:
two calls on the same date string agree field for field in the date, the
description, the condition list and the reward points. -/
theorem generateDailyChallenge_deterministic (d : String) :
    (generateDailyChallenge d).date = (generateDailyChallenge d).date ∧
    (generateDailyChallenge d).description =
      (generateDailyChallenge d).description ∧
    (generateDailyChallenge d).conditions =
      (generateDailyChallenge d).conditions ∧
    (generateDailyChallenge d).rewardPoints =
      (generateDailyChallenge d).rewardPoints :=
  ⟨rfl, rfl, rfl, rfl⟩

/-- Claim C8: for every date string the generated challenge carries a
hit-streak target in [5, 12], a score target (2 + hash mod 8) * 500, hence
a multiple of 500 in [1000, 4500], and reward 500 + streak * 100. -/
theorem generateDailyChallenge_ranges (d : String) :
    ∃ streak : ℕ, ∃ target : ℤ,
      (generateDailyChallenge d).conditions =
        [⟨CondType.hit_streak, some streak, none⟩,
         ⟨CondType.score, none, some target⟩] ∧
      streak = 5 + dateHash d % 8 ∧
      5 ≤ streak ∧ streak ≤ 12 ∧
      target = ((2 + dateHash d % 8 : ℕ) : ℤ) * 500 ∧
      (500 : ℤ) ∣ target ∧ 1000 ≤ target ∧ target ≤ 4500 ∧
      (generateDailyChallenge d).rewardPoints = 500 + streak * 100 := by
  have h8 : dateHash d % 8 < 8 := Nat.mod_lt _ (by norm_num)
  refine ⟨5 + dateHash d % 8, ((2 + dateHash d % 8 : ℕ) : ℤ) * 500,
    rfl, rfl, by omega, by omega, rfl, dvd_mul_left 500 _, ?_, ?_, rfl⟩
  · have h2 : (2 : ℤ) ≤ ((2 + dateHash d % 8 : ℕ) : ℤ) := by
      exact_mod_cast Nat.le_add_right 2 _
    nlinarith
  · have h9 : ((2 + dateHash d % 8 : ℕ) : ℤ) ≤ 9 := by exact_mod_cast by omega
    nlinarith

lemma trackStreak_challenge (p : ChallengeProgress) (r : Option HitRating) :
    (trackStreak p r).challenge = p.challenge := by
  unfold trackStreak
  split_ifs <;> rfl

lemma trackStreak_scoreReached (p : ChallengeProgress) (r : Option HitRating) :
    (trackStreak p r).scoreReached = p.scoreReached := by
  unfold trackStreak
  split_ifs <;> rfl

lemma trackStreak_completed (p : ChallengeProgress) (r : Option HitRating) :
    (trackStreak p r).completed = p.completed := by
  unfold trackStreak
  split_ifs <;> rfl

lemma checkScore_challenge (p : ChallengeProgress) (s : ScoreState) :
    (checkScore p s).challenge = p.challenge := by
  unfold checkScore
  split_ifs <;> rfl

lemma checkScore_consecutivePerfects (p : ChallengeProgress)
    (s : ScoreState) :
    (checkScore p s).consecutivePerfects = p.consecutivePerfects := by
  unfold checkScore
  split_ifs <;> rfl

lemma checkScore_bestStreak (p : ChallengeProgress) (s : ScoreState) :
    (checkScore p s).bestStreak = p.bestStreak := by
  unfold checkScore
  split_ifs <;> rfl

lemma checkScore_completed (p : ChallengeProgress) (s : ScoreState) :
    (checkScore p s).completed = p.completed := by
  unfold checkScore
  split_ifs <;> rfl

lemma checkCompletion_consecutivePerfects (p : ChallengeProgress) :
    (checkCompletion p).consecutivePerfects = p.consecutivePerfects := by
  simp only [checkCompletion]
  split_ifs <;> rfl

lemma checkCompletion_bestStreak (p : ChallengeProgress) :
    (checkCompletion p).bestStreak = p.bestStreak := by
  simp only [checkCompletion]
  split_ifs <;> rfl

lemma checkCompletion_scoreReached (p : ChallengeProgress) :
    (checkCompletion p).scoreReached = p.scoreReached := by
  simp only [checkCompletion]
  split_ifs <;> rfl

lemma checkCompletion_completed_eq (p : ChallengeProgress) (streak : ℕ)
    (target : ℤ)
    (hch : p.challenge.conditions =
      [⟨CondType.hit_streak, some streak, none⟩,
       ⟨CondType.score, none, some target⟩])
    (hc : p.completed = false) :
    (checkCompletion p).completed =
      (decide (streak ≤ p.bestStreak) && p.scoreReached) := by
  unfold checkCompletion
  rw [hch]
  simp only [List.find?]
  split_ifs <;> simp_all

/-- Claim C7: updateChallengeProgress is the identity once completed is set
(so completed stays true forever); before completion a perfect rating grows
the running streak and raises the best streak when exceeded, a good or miss
rating resets the running streak to zero while preserving the best streak,
and for a tracker over a generated daily challenge the completed flag after
every update equals (best streak at least the streak target) and (score
target reached). -/
theorem updateChallengeProgress_spec :
    (∀ p s r, p.completed = true → updateChallengeProgress p s r = p) ∧
    (∀ p s, p.completed = false →
      ((updateChallengeProgress p s
          (some HitRating.perfect)).consecutivePerfects
          = p.consecutivePerfects + 1 ∧
        (updateChallengeProgress p s (some HitRating.perfect)).bestStreak
          = max p.bestStreak (p.consecutivePerfects + 1)) ∧
      ∀ r, r = some HitRating.good ∨ r = some HitRating.miss →
        (updateChallengeProgress p s r).consecutivePerfects = 0 ∧
        (updateChallengeProgress p s r).bestStreak = p.bestStreak) ∧
    (∀ d p s r, p.challenge = generateDailyChallenge d → p.completed = false →
      (updateChallengeProgress p s r).completed =
        (decide (5 + dateHash d % 8 ≤
            (updateChallengeProgress p s r).bestStreak) &&
          (updateChallengeProgress p s r).scoreReached)) ∧
    (∀ p s r, (updateChallengeProgress p s r).completed = true →
      ∀ s2 r2, (updateChallengeProgress
        (updateChallengeProgress p s r) s2 r2).completed = true) := by
  have hide : ∀ p s r, p.completed = true → updateChallengeProgress p s r = p := by
    intro p s r h
    simp [updateChallengeProgress, h]
  refine ⟨hide, ?_, ?_, ?_⟩
  · intro p s hc
    refine ⟨⟨?_, ?_⟩, ?_⟩
    · simp only [updateChallengeProgress, hc, Bool.false_eq_true, if_false,
        checkCompletion_consecutivePerfects, checkScore_consecutivePerfects]
      simp [trackStreak]
    · simp only [updateChallengeProgress, hc, Bool.false_eq_true, if_false,
        checkCompletion_bestStreak, checkScore_bestStreak]
      simp [trackStreak]
      split_ifs with hgt
      · exact (max_eq_right (le_of_lt hgt)).symm
      · exact (max_eq_left (not_lt.mp hgt)).symm
    · intro r hr
      rcases hr with rfl | rfl <;>
        · constructor <;>
            · simp only [updateChallengeProgress, hc, Bool.false_eq_true,
                if_false, checkCompletion_consecutivePerfects,
                checkScore_consecutivePerfects, checkCompletion_bestStreak,
                checkScore_bestStreak]
              simp [trackStreak]
  · intro d p s r hch hc
    have hconds : (checkScore (trackStreak p r) s).challenge.conditions =
        [⟨CondType.hit_streak, some (5 + dateHash d % 8), none⟩,
         ⟨CondType.score, none,
          some (((2 + dateHash d % 8 : ℕ) : ℤ) * 500)⟩] := by
      rw [checkScore_challenge, trackStreak_challenge, hch]
      rfl
    have hcomp : (checkScore (trackStreak p r) s).completed = false := by
      rw [checkScore_completed, trackStreak_completed, hc]
    simp only [updateChallengeProgress, hc, Bool.false_eq_true, if_false,
      checkCompletion_bestStreak, checkCompletion_scoreReached]
    exact checkCompletion_completed_eq _ _ _ hconds hcomp
  · intro p s r h s2 r2
    rw [hide _ s2 r2 h, h]

/-- Witness for C7: updating a completed tracker changes nothing. -/
theorem updateChallengeProgress_spec_witness :
    updateChallengeProgress
      { createChallengeProgress (generateDailyChallenge "2024-01-15") with
        completed := true } createScoreState (some HitRating.perfect) =
      { createChallengeProgress (generateDailyChallenge "2024-01-15") with
        completed := true } :=
  updateChallengeProgress_spec.1 _ _ _ rfl

-- ─── Theorems: beat spawning (C10) ──────────────────────────────────────────

/-- Counterexample to claim C10 as stated: a running lane with an entirely
empty beat pattern faults in onBeatFired (the modulus is zero in the
JavaScript source, the slot list lookup is undefined, and iterating it
throws), modelled as the none result. -/
theorem onBeatFired_empty_pattern_fault :
    onBeatFired true [] 1 0 [] 0 0 = none := rfl

/-- Amended claim C10: with a nonempty beat pattern onBeatFired never
faults, and a beat whose slot list is empty spawns zero targets, leaving
the lane's target set and id counter unchanged; the entirely empty beat
pattern is the single faulting exception. -/
theorem onBeatFired_nonempty_spec (running : Bool) (bp : List (List TapZone))
    (spb : ℚ) (idc : ℕ) (targets : List RhythmTarget) (beatNum : ℕ)
    (beatTime : ℚ) (h : bp ≠ []) :
    (∃ res, onBeatFired running bp spb idc targets beatNum beatTime =
      some res) ∧
    (running = true → bp[beatNum % bp.length]? = some [] →
      onBeatFired running bp spb idc targets beatNum beatTime =
        some (targets, idc)) := by
  constructor
  · cases running
    · exact ⟨(targets, idc), rfl⟩
    · have hlen : beatNum % bp.length < bp.length :=
        Nat.mod_lt _ (List.length_pos.mpr h)
      have hs : (onBeatFired true bp spb idc targets beatNum
          beatTime).isSome = true := by
        simp [onBeatFired, List.getElem?_eq_getElem hlen]
      exact Option.isSome_iff_exists.mp hs
  · intro hr hz
    subst hr
    simp [onBeatFired, hz]

/-- Witness for the amended C10: a running lane whose single beat slot is
empty spawns nothing. -/
theorem onBeatFired_nonempty_spec_witness :
    onBeatFired true [[]] 1 0 [] 0 0 = some ([], 0) :=
  (onBeatFired_nonempty_spec true [[]] 1 0 [] 0 0 (by simp)).2 rfl rfl

end DancingGame
